import Mathlib

/-!
Shallow embedding of the pg-migrations tool (src/migrations.go).

Strings of the Go program are modelled as lists of characters (`Str`), one
character standing for one byte of the original ASCII data; file contents and
digests are lists of bytes (`List Nat`).  The database-backed migration ledger
is a list of `SchemaMigration` records; the surrogate primary key assigned by
the database sequence is modelled by `nextId`.  Fallible operations return
`Except MError`; operations that can additionally crash the process (the Go
slice expression `fileStrs[0][1:]` panics on an empty string) return
`GoResult`.  External effects that the program merely consumes — the SQL
execution outcome of a migration file, the success of a ledger UPDATE, wall
clock readings and bcrypt's internal random salt draw — are supplied by an
explicit environment `Env`.
-/

deriving instance DecidableEq for Except

namespace PgMigrations

abbrev Str := List Char

/-- Errors surfaced by the program: file read failures (`ioutil.ReadFile`),
the invalid-file-name error built in `GetFileDetails`, `pg.ErrNoRows` from a
`Select` that matches no row, the unique-index violation on insert, a failed
SQL execution, and a failed ledger update write. -/
inductive MError where
  | ioError (path : Str)
  | invalidFileName (path : Str)
  | notFound
  | duplicate
  | execFailed (msg : Str)
  | updateFailed (id : Nat)
  deriving DecidableEq

/-- Result of a Go computation that can also crash the process. -/
inductive GoResult (α : Type) where
  | ok (a : α)
  | err (e : MError)
  | panic (msg : Str)
  deriving DecidableEq

/-- Go strings.Split with the one-character separator `sep`
(used by `GetFileDetails` for "/" and "."). -/
def splitChar (sep : Char) : Str → List Str
  | [] => [[]]
  | c :: rest =>
    if c = sep then [] :: splitChar sep rest
    else
      match splitChar sep rest with
      | [] => [[c]]
      | h :: t => (c :: h) :: t

/-- Go strings.Split with the two-character separator "__", scanning
left-to-right over non-overlapping occurrences. -/
def splitUU : Str → List Str
  | [] => [[]]
  | [c] => [[c]]
  | c1 :: c2 :: rest =>
    if c1 = '_' ∧ c2 = '_' then [] :: splitUU rest
    else
      match splitUU (c2 :: rest) with
      | [] => [[c1]]
      | h :: t => (c1 :: h) :: t

def isDigitCh (c : Char) : Bool := '0' ≤ c && c ≤ '9'

def digitVal (c : Char) : Nat := c.toNat - '0'.toNat

def parseNatAux : Str → Nat → Option Nat
  | [], acc => some acc
  | c :: cs, acc => if isDigitCh c then parseNatAux cs (acc * 10 + digitVal c) else none

/-- Go strconv.Atoi: an optional single leading sign followed by at least one
decimal digit, rejecting anything else; values outside the 64-bit signed
integer range yield an error (strconv.ErrRange). -/
def goAtoi (s : Str) : Option Int :=
  match s with
  | [] => none
  | c :: rest =>
    if c = '-' then
      match rest with
      | [] => none
      | _ => (parseNatAux rest 0).bind fun n =>
          if n ≤ 9223372036854775808 then some (-(n : Int)) else none
    else if c = '+' then
      match rest with
      | [] => none
      | _ => (parseNatAux rest 0).bind fun n =>
          if n ≤ 9223372036854775807 then some ((n : Int)) else none
    else (parseNatAux s 0).bind fun n =>
      if n ≤ 9223372036854775807 then some ((n : Int)) else none

def bcryptDefaultCost : Nat := 10

/-- Modelled from the spec: the content fingerprint is computed with a slow,
salted password-hashing primitive (bcrypt.GenerateFromPassword), whose output
is a modular-crypt-format digest that encodes the cost parameter and the
per-call random salt alongside the key-derivation output, so the digest
depends on the salt as well as on the input bytes.  The salt, drawn internally
at random by the library, is an explicit argument here; the key-derivation
core is abstracted by a deterministic mixing fold.  At the default cost the
library call does not fail. -/
def bcryptGenerateFromPassword (password : List Nat) (cost salt : Nat) : List Nat :=
  cost :: salt :: [password.foldl (fun h b => (h * 131 + b + salt) % 4294967296) (salt % 4294967296)]

/-- Parsed form of a migration file, mirroring `FileDetails` in the source. -/
structure FileDetails where
  version : Int
  description : Str
  migrationType : Str
  filePath : Str
  fileContent : List Nat
  checkSum : List Nat
  deriving DecidableEq

/-- Embedding of `GetFileDetails`: read the file, split the path on "/", take
the last component, split it on "." into exactly three segments, map the
middle segment up/down to UPGRADE/DOWNGRADE, split the first segment on "__"
into exactly two parts, strip the first byte of the first part (the Go slice
`fileStrs[0][1:]`, which panics when that part is empty), parse the rest with
strconv.Atoi, and fingerprint the content with bcrypt at the default cost. -/
def GetFileDetails (readFile : Str → Except MError (List Nat)) (salt : Nat)
    (filePath : Str) : GoResult FileDetails :=
  match readFile filePath with
  | .error e => .err e
  | .ok fileContent =>
    let comps := splitChar '/' filePath
    let fileStrs := splitChar '.' (comps.getLastD [])
    if fileStrs.length ≠ 3 then .err (.invalidFileName filePath)
    else
      let tag := fileStrs.getD 1 []
      let migType? : Option Str :=
        if tag = "up".toList then some "UPGRADE".toList
        else if tag = "down".toList then some "DOWNGRADE".toList
        else none
      match migType? with
      | none => .err (.invalidFileName filePath)
      | some migrationType =>
        let parts := splitUU (fileStrs.getD 0 [])
        if parts.length ≠ 2 then .err (.invalidFileName filePath)
        else
          let description := parts.getD 1 []
          match parts.getD 0 [] with
          | [] => .panic "slice bounds out of range".toList
          | _ :: versionStr =>
            match goAtoi versionStr with
            | none => .err (.invalidFileName filePath)
            | some version =>
              .ok { version := version, description := description,
                    migrationType := migrationType, filePath := filePath,
                    fileContent := fileContent,
                    checkSum := bcryptGenerateFromPassword fileContent bcryptDefaultCost salt }

/-- Persisted ledger row, mirroring the `SchemaMigration` struct; `id` is the
surrogate primary key assigned on insert, timestamps are abstract clock
readings. -/
structure SchemaMigration where
  id : Nat
  version : Int
  description : Str
  migrationType : Str
  filePath : Str
  executionTime : Nat
  processed : Bool
  fileContent : List Nat
  checkSum : List Nat
  success : Bool
  error : Str
  createdAt : Nat
  updatedAt : Nat
  deriving DecidableEq

abbrev Ledger := List SchemaMigration

/-- Filesystem snapshot: the entries visited by `filepath.Walk`, in walk
order (the root directory itself first, then descendants). -/
inductive FSEntry where
  | file (path : Str) (content : List Nat)
  | dir (path : Str)
  deriving DecidableEq

def FSEntry.path : FSEntry → Str
  | .file p _ => p
  | .dir p => p

/-- Paths handed to the walk callback, which records every visited path. -/
def walkPaths (fs : List FSEntry) : List Str := fs.map FSEntry.path

/-- ioutil.ReadFile against the snapshot: a directory (or a missing path)
yields a read error. -/
def readFileFS (fs : List FSEntry) (p : Str) : Except MError (List Nat) :=
  match fs.find? (fun e => e.path == p) with
  | some (.file _ content) => .ok content
  | _ => .error (.ioError p)

/-- External effects consumed by the engine: the SQL execution outcome of a
record's statement batch, whether the ledger UPDATE for a given id succeeds,
the measured whole-second execution time, bcrypt's random salt draw for each
file, and the current clock reading. -/
structure Env where
  execResult : SchemaMigration → Except Str Unit
  updateOk : Nat → Bool
  elapsed : Nat
  saltOf : Str → Nat
  now : Nat

def MError.text : MError → Str
  | .execFailed m => m
  | _ => []

/-- Ordering relation of the SQL clause ORDER BY id ASC. -/
def leId (a b : SchemaMigration) : Prop := a.id ≤ b.id

instance : DecidableRel leId := fun a b => Nat.decLe a.id b.id

instance : IsTotal SchemaMigration leId := ⟨fun a b => Nat.le_total a.id b.id⟩

instance : IsTrans SchemaMigration leId := ⟨fun _ _ _ hab hbc => Nat.le_trans hab hbc⟩

/-- The two ORDER BY clauses used by the program, "id ASC" and "id DESC". -/
def orderById (ord : Str) (rs : List SchemaMigration) : List SchemaMigration :=
  if ord = "id DESC".toList then (List.insertionSort leId rs).reverse
  else List.insertionSort leId rs

/-- SELECT count(*) WHERE file_path = ?. -/
def CountSchemaMigrationForFilePath (l : Ledger) (p : Str) : Nat :=
  (l.filter (fun r => r.filePath == p)).length

/-- Next value of the primary-key sequence. -/
def nextId (l : Ledger) : Nat := (l.map SchemaMigration.id).foldr Nat.max 0 + 1

/-- INSERT of a new row: assigns the surrogate id and fails on the unique
index over (version, migration_type). -/
def AddSchemaMigration (l : Ledger) (sm : SchemaMigration) :
    Except MError (Ledger × SchemaMigration) :=
  if l.any (fun r => r.version == sm.version && r.migrationType == sm.migrationType) then
    .error .duplicate
  else
    let sm' := { sm with id := nextId l }
    .ok (l ++ [sm'], sm')

/-- SELECT ... WHERE processed = false AND migration_type = ? ORDER BY ?;
selecting into a slice returns an empty list, not an error, when nothing
matches. -/
def FetchUnProcessedSchemaMigrations (l : Ledger) (mt ord : Str) :
    Except MError (List SchemaMigration) :=
  .ok (orderById ord (l.filter (fun r => !r.processed && r.migrationType == mt)))

/-- SELECT ... WHERE id = ? AND processed = false AND migration_type = ?.
The WHERE clause compares the surrogate id column with the supplied value,
although the function's name speaks of a version and its caller passes a
version number.  A single-row select with no match yields pg.ErrNoRows. -/
def FetchUnProcessedSchemaMigrationBasedOnVersionAndType (l : Ledger) (ID : Int)
    (mt : Str) : Except MError SchemaMigration :=
  match l.find? (fun r => ((r.id : Int) == ID) && !r.processed && r.migrationType == mt) with
  | none => .error .notFound
  | some r => .ok r

/-- SELECT ... WHERE processed = true AND migration_type = UPGRADE, then
go-pg's Last(): the row with the greatest primary key among the matches. -/
def GetCurrentVersion (l : Ledger) : Except MError SchemaMigration :=
  match (List.insertionSort leId
      (l.filter (fun r => r.processed && r.migrationType == "UPGRADE".toList))).getLast? with
  | none => .error .notFound
  | some r => .ok r

/-- UPDATE of the columns execution_time, processed, success, error (plus
updated_at) of the row with the given id; the write itself can fail at the
database, which is the environment's `updateOk` bit.  The Go function also
returns the record it built, but every caller looks only at the error, so the
payload is elided. -/
def UpdateSchemaMigration (env : Env) (l : Ledger) (ID executionTime : Nat)
    (processed success : Bool) (e : Str) : Ledger × Except MError Unit :=
  if env.updateOk ID then
    (l.map (fun r =>
      if r.id = ID then
        { r with executionTime := executionTime, processed := processed,
                 success := success, error := e, updatedAt := env.now }
      else r), .ok ())
  else (l, .error (.updateFailed ID))

/-- Execute the record's statement batch inside one transaction: commit on
success, roll back on error; the ledger is untouched either way and the
target schema is outside the model. -/
def ApplySchemaMigration (env : Env) (sm : SchemaMigration) : Except MError Unit :=
  match env.execResult sm with
  | .ok _ => .ok ()
  | .error m => .error (.execFailed m)

/-- Embedding of `ApplyMigration`: run the batch; on execution failure write
processed = true, success = false and the error message to the ledger —
discarding any failure of that write — and return the original execution
error; on execution success write processed = true, success = true, empty
error, and return any failure of that write. -/
def ApplyMigration (env : Env) (l : Ledger) (sm : SchemaMigration) :
    Ledger × Except MError Unit :=
  let executionTime := env.elapsed
  match ApplySchemaMigration env sm with
  | .error e =>
    ((UpdateSchemaMigration env l sm.id executionTime true false e.text).1, .error e)
  | .ok _ =>
    match UpdateSchemaMigration env l sm.id executionTime true true [] with
    | (l', .ok _) => (l', .ok ())
    | (l', .error e) => (l', .error e)

/-- Embedding of `AddEntryToDB`: parse the file and insert a fresh record
with executionTime 0, processed = false, success = false and empty error. -/
def AddEntryToDB (env : Env) (fs : List FSEntry) (filePath : Str) (l : Ledger) :
    Ledger × GoResult SchemaMigration :=
  match GetFileDetails (readFileFS fs) (env.saltOf filePath) filePath with
  | .panic m => (l, .panic m)
  | .err e => (l, .err e)
  | .ok fd =>
    let sm : SchemaMigration :=
      { id := 0, version := fd.version, description := fd.description,
        migrationType := fd.migrationType, filePath := fd.filePath,
        executionTime := 0, processed := false, fileContent := fd.fileContent,
        checkSum := fd.checkSum, success := false, error := [],
        createdAt := env.now, updatedAt := env.now }
    match AddSchemaMigration l sm with
    | .error e => (l, .err e)
    | .ok (l', sm') => (l', .ok sm')

/-- Loop body of `AddNewSchemaMigrations` over the walked paths.  Besides the
resulting ledger and outcome it returns a ghost trace: the paths handed to
`AddEntryToDB` (i.e. on which a parse was attempted), in order.  A path equal
to the root directory is skipped, as is a path whose ledger count is exactly
one; a parse or insert failure aborts the loop. -/
def processFiles (env : Env) (fs : List FSEntry) (root : Str) :
    List Str → Ledger → Ledger × List Str × GoResult Unit
  | [], l => (l, [], .ok ())
  | p :: rest, l =>
    if p = root then processFiles env fs root rest l
    else if CountSchemaMigrationForFilePath l p = 1 then processFiles env fs root rest l
    else
      match AddEntryToDB env fs p l with
      | (l', .ok _) =>
        let out := processFiles env fs root rest l'
        (out.1, p :: out.2.1, out.2.2)
      | (l', .err e) => (l', [p], .err e)
      | (l', .panic m) => (l', [p], .panic m)

/-- Embedding of `AddNewSchemaMigrations`: walk the directory collecting every
visited path (the root and nested directories included), then process them. -/
def AddNewSchemaMigrations (env : Env) (fs : List FSEntry) (root : Str)
    (l : Ledger) : Ledger × List Str × GoResult Unit :=
  processFiles env fs root (walkPaths fs) l

/-- Fail-fast batch application used by `syncLatestMigrations`: apply each
record in order, returning at the first failure without touching the rest.
The middle component is a ghost trace of the ids handed to `ApplyMigration`. -/
def applyAllFailFast (env : Env) : Ledger → List SchemaMigration →
    Ledger × List Nat × Except MError Unit
  | l, [] => (l, [], .ok ())
  | l, sm :: rest =>
    match ApplyMigration env l sm with
    | (l', .ok _) =>
      let out := applyAllFailFast env l' rest
      (out.1, sm.id :: out.2.1, out.2.2)
    | (l', .error e) => (l', [sm.id], .error e)

/-- Embedding of `syncLatestMigrations` (the up command): reconcile the
directory, fetch outstanding UPGRADE records ordered by id ascending, apply
them fail-fast.  The middle component is the ghost trace of applied ids. -/
def syncLatestMigrations (env : Env) (fs : List FSEntry) (root : Str)
    (l : Ledger) : Ledger × List Nat × GoResult Unit :=
  match AddNewSchemaMigrations env fs root l with
  | (l', _, .err e) => (l', [], .err e)
  | (l', _, .panic m) => (l', [], .panic m)
  | (l', _, .ok _) =>
    match FetchUnProcessedSchemaMigrations l' "UPGRADE".toList "id ASC".toList with
    | .error e => (l', [], .err e)
    | .ok recs =>
      match applyAllFailFast env l' recs with
      | (l'', tr, .ok _) => (l'', tr, .ok ())
      | (l'', tr, .error e) => (l'', tr, .err e)

/-- Best-effort batch application used by `revertAll`: a failure of
`ApplyMigration` is only logged and the loop continues with every remaining
record.  The second component is the ghost trace of the ids handed to
`ApplyMigration`. -/
def applyAllBestEffort (env : Env) : Ledger → List SchemaMigration →
    Ledger × List Nat
  | l, [] => (l, [])
  | l, sm :: rest =>
    let out := applyAllBestEffort env (ApplyMigration env l sm).1 rest
    (out.1, sm.id :: out.2)

/-- Embedding of `revertAll` (the reset command): fetch outstanding DOWNGRADE
records ordered by id descending and apply them best-effort; a fetch error is
logged and the loop runs over the empty slice. -/
def revertAll (env : Env) (l : Ledger) : Ledger × List Nat :=
  match FetchUnProcessedSchemaMigrations l "DOWNGRADE".toList "id DESC".toList with
  | .error _ => (l, [])
  | .ok recs => applyAllBestEffort env l recs

/-- Embedding of `revertMigration`: fetch the outstanding DOWNGRADE record via
`FetchUnProcessedSchemaMigrationBasedOnVersionAndType` and apply it alone. -/
def revertMigration (env : Env) (l : Ledger) (version : Int) :
    Ledger × Except MError Unit :=
  match FetchUnProcessedSchemaMigrationBasedOnVersionAndType l version "DOWNGRADE".toList with
  | .error e => (l, .error e)
  | .ok sm => ApplyMigration env l sm

/-- Embedding of `downgradeMigration` (the down command): find the current
version, then revert it; a failure of the version query exits the process,
modelled as returning that error. -/
def downgradeMigration (env : Env) (l : Ledger) : Ledger × Except MError Unit :=
  match GetCurrentVersion l with
  | .error e => (l, .error e)
  | .ok latest => revertMigration env l latest.version

/-! Shared concrete material and helper lemmas. -/

/-- Benign environment: every statement batch succeeds, every ledger write
succeeds, measured time and clock are zero, the salt draw is zero. -/
def env0 : Env :=
  { execResult := fun _ => .ok (), updateOk := fun _ => true,
    elapsed := 0, saltOf := fun _ => 0, now := 0 }

/-- Concrete ledger row builder for witnesses and counterexamples. -/
def mkRec (id : Nat) (v : Int) (mt : String) (proc succ : Bool) : SchemaMigration :=
  { id := id, version := v, description := "init".toList, migrationType := mt.toList,
    filePath := ("f" ++ toString id).toList, executionTime := 0, processed := proc,
    fileContent := [65], checkSum := [0], success := succ, error := [],
    createdAt := 0, updatedAt := 0 }

theorem sorted_getLast?_max {l : List SchemaMigration} {r : SchemaMigration}
    (hs : List.Sorted leId l) (hl : l.getLast? = some r) : ∀ x ∈ l, x.id ≤ r.id := by
  induction l with
  | nil => simp at hl
  | cons a t ih =>
    cases t with
    | nil =>
      simp only [List.getLast?_singleton, Option.some.injEq] at hl
      subst hl
      intro x hx
      simp only [List.mem_singleton] at hx
      subst hx
      exact Nat.le_refl _
    | cons b t2 =>
      rw [List.getLast?_cons_cons] at hl
      intro x hx
      rcases List.mem_cons.1 hx with rfl | hx2
      · have hr : r ∈ b :: t2 := List.mem_of_mem_getLast? (by simp [hl])
        exact List.rel_of_sorted_cons hs r hr
      · exact ih hs.of_cons hl x hx2

/-! Claim C1. -/

def c1Ledger : Ledger := [mkRec 1 1 "UPGRADE" true true, mkRec 2 2 "UPGRADE" true false]

/-- C1, counterexample: in a ledger holding a succeeded UPGRADE record (id 1)
and a later failed UPGRADE record (id 2), `GetCurrentVersion` returns the
failed one, so the returned record does not satisfy `Success = true` even
though the state contains a record with `direction = UPGRADE` and
`succeeded = true`; the query filters on `processed`, not on `succeeded`. -/
theorem C1_counterexample :
    (mkRec 1 1 "UPGRADE" true true) ∈ c1Ledger ∧
    (mkRec 1 1 "UPGRADE" true true).migrationType = "UPGRADE".toList ∧
    (mkRec 1 1 "UPGRADE" true true).success = true ∧
    GetCurrentVersion c1Ledger = .ok (mkRec 2 2 "UPGRADE" true false) ∧
    (mkRec 2 2 "UPGRADE" true false).success = false := by decide

/-- C1 (amended): `GetCurrentVersion` returns the record with the highest
surrogate id among records with `MigrationType = UPGRADE` and
`Processed = true` (succeeded is not consulted); for every ledger state
containing at least one such record, the returned record satisfies
`MigrationType = UPGRADE` and `Processed = true`, and its id dominates every
other processed UPGRADE record. -/
theorem C1_currentVersion (l : Ledger) (w : SchemaMigration)
    (hw : w ∈ l) (hwp : w.processed = true) (hwt : w.migrationType = "UPGRADE".toList) :
    ∃ r, GetCurrentVersion l = .ok r ∧ r ∈ l ∧ r.processed = true ∧
      r.migrationType = "UPGRADE".toList ∧
      ∀ x ∈ l, x.processed = true → x.migrationType = "UPGRADE".toList → x.id ≤ r.id := by
  have hwf : w ∈ l.filter (fun r => r.processed && r.migrationType == "UPGRADE".toList) :=
    List.mem_filter.2 ⟨hw, by simp [hwp, hwt]⟩
  have hperm := List.perm_insertionSort leId
    (l.filter (fun r => r.processed && r.migrationType == "UPGRADE".toList))
  have hws : w ∈ List.insertionSort leId
      (l.filter (fun r => r.processed && r.migrationType == "UPGRADE".toList)) :=
    hperm.mem_iff.2 hwf
  have hsne := List.ne_nil_of_mem hws
  have hlast : (List.insertionSort leId
      (l.filter (fun r => r.processed && r.migrationType == "UPGRADE".toList))).getLast? ≠ none := by
    simpa [List.getLast?_eq_none_iff] using hsne
  obtain ⟨r, hr⟩ := Option.ne_none_iff_exists'.1 hlast
  have hrs : r ∈ List.insertionSort leId
      (l.filter (fun r => r.processed && r.migrationType == "UPGRADE".toList)) :=
    List.mem_of_mem_getLast? hr
  have hrf := hperm.mem_iff.1 hrs
  have hrl : r ∈ l := (List.mem_filter.1 hrf).1
  have hrp : r.processed = true ∧ r.migrationType = "UPGRADE".toList := by
    have := (List.mem_filter.1 hrf).2
    simpa using this
  refine ⟨r, ?_, hrl, hrp.1, hrp.2, ?_⟩
  · unfold GetCurrentVersion
    rw [hr]
  · intro x hx hxp hxt
    have hxf : x ∈ l.filter (fun r => r.processed && r.migrationType == "UPGRADE".toList) :=
      List.mem_filter.2 ⟨hx, by simp [hxp, hxt]⟩
    exact sorted_getLast?_max (List.sorted_insertionSort leId _) hr x (hperm.mem_iff.2 hxf)

/-- C1, witness: the amended theorem applied to the two-record ledger. -/
theorem C1_currentVersion_witness :
    ∃ r, GetCurrentVersion c1Ledger = .ok r ∧ r ∈ c1Ledger ∧ r.processed = true ∧
      r.migrationType = "UPGRADE".toList ∧
      ∀ x ∈ c1Ledger, x.processed = true → x.migrationType = "UPGRADE".toList → x.id ≤ r.id :=
  C1_currentVersion c1Ledger (mkRec 1 1 "UPGRADE" true true)
    (by decide) (by decide) (by decide)

/-! Claim C2. -/

def c2Ledger : Ledger := [mkRec 1 5 "UPGRADE" true true, mkRec 2 5 "DOWNGRADE" false false]

/-- C2: evaluation at the failing input.  The current version is 5 (held by
the record with surrogate id 1) and an outstanding DOWNGRADE record whose
version field equals 5 is registered (surrogate id 2), yet the down command
fails with NotFoundError: `FetchUnProcessedSchemaMigrationBasedOnVersionAndType`
compares the surrogate id column — not the version column — with the version
number it is given, and no outstanding DOWNGRADE row has id 5. -/
theorem C2_down_eval :
    GetCurrentVersion c2Ledger = .ok (mkRec 1 5 "UPGRADE" true true) ∧
    (mkRec 1 5 "UPGRADE" true true).version = 5 ∧
    (mkRec 2 5 "DOWNGRADE" false false) ∈ c2Ledger ∧
    (mkRec 2 5 "DOWNGRADE" false false).version = 5 ∧
    (mkRec 2 5 "DOWNGRADE" false false).migrationType = "DOWNGRADE".toList ∧
    (mkRec 2 5 "DOWNGRADE" false false).processed = false ∧
    downgradeMigration env0 c2Ledger = (c2Ledger, .error .notFound) := by decide

/-! Claim C3. -/

theorem ApplyMigration_ok (env : Env) (l : Ledger) (sm : SchemaMigration)
    (h1 : env.execResult sm = .ok ()) (h2 : env.updateOk sm.id = true) :
    ApplyMigration env l sm =
      ((UpdateSchemaMigration env l sm.id env.elapsed true true []).1, .ok ()) := by
  simp [ApplyMigration, ApplySchemaMigration, h1, UpdateSchemaMigration, h2]

theorem ApplyMigration_fail (env : Env) (l : Ledger) (sm : SchemaMigration) (m : Str)
    (h1 : env.execResult sm = .error m) :
    ApplyMigration env l sm =
      ((UpdateSchemaMigration env l sm.id env.elapsed true false m).1,
        .error (.execFailed m)) := by
  simp [ApplyMigration, ApplySchemaMigration, h1, MError.text]

theorem orderById_asc (xs : List SchemaMigration) :
    orderById "id ASC".toList xs = List.insertionSort leId xs := by
  unfold orderById
  rw [if_neg (by decide)]

theorem orderById_desc (xs : List SchemaMigration) :
    orderById "id DESC".toList xs = (List.insertionSort leId xs).reverse := by
  unfold orderById
  rw [if_pos rfl]

theorem applyAllFailFast_spec (env : Env) (bad : SchemaMigration) (e : Str)
    (hbad : env.execResult bad = .error e) :
    ∀ (pre : List SchemaMigration) (l : Ledger) (post : List SchemaMigration),
      (∀ r ∈ pre, env.execResult r = .ok () ∧ env.updateOk r.id = true) →
      ∃ l₂, applyAllFailFast env l (pre ++ bad :: post) =
        (l₂, pre.map SchemaMigration.id ++ [bad.id], .error (.execFailed e)) := by
  intro pre
  induction pre with
  | nil =>
    intro l post _
    refine ⟨(UpdateSchemaMigration env l bad.id env.elapsed true false e).1, ?_⟩
    simp [applyAllFailFast, ApplyMigration_fail env l bad e hbad]
  | cons a t ih =>
    intro l post hpre
    have ha := hpre a (List.mem_cons_self a t)
    obtain ⟨l₂, hl₂⟩ := ih (UpdateSchemaMigration env l a.id env.elapsed true true []).1
      post (fun r hr => hpre r (List.mem_cons_of_mem a hr))
    refine ⟨l₂, ?_⟩
    simp only [List.cons_append, applyAllFailFast, ApplyMigration_ok env l a ha.1 ha.2, hl₂]
    simp [hl₂]

/-- C3: the up command (`syncLatestMigrations`) applies the outstanding
UPGRADE records strictly in ascending surrogate-id order — the fetched batch
is sorted by id — and stops at the first failure: the applied trace covers
exactly the successful records followed by the failing one, the failure is
propagated, and no later record of the batch is attempted. -/
theorem C3_up_fail_fast (env : Env) (fs : List FSEntry) (root : Str) (l l₁ : Ledger)
    (ptr : List Str) (pre post : List SchemaMigration) (bad : SchemaMigration) (e : Str)
    (hsync : AddNewSchemaMigrations env fs root l = (l₁, ptr, .ok ()))
    (hfetch : FetchUnProcessedSchemaMigrations l₁ "UPGRADE".toList "id ASC".toList =
      .ok (pre ++ bad :: post))
    (hpre : ∀ r ∈ pre, env.execResult r = .ok () ∧ env.updateOk r.id = true)
    (hbad : env.execResult bad = .error e) :
    List.Sorted leId (pre ++ bad :: post) ∧
    ∃ l₂, syncLatestMigrations env fs root l =
      (l₂, pre.map SchemaMigration.id ++ [bad.id], .err (.execFailed e)) := by
  have hfetch' := hfetch
  unfold FetchUnProcessedSchemaMigrations at hfetch'
  rw [orderById_asc] at hfetch'
  have heq := Except.ok.inj hfetch'
  constructor
  · rw [← heq]
    exact List.sorted_insertionSort leId _
  · obtain ⟨l₂, hl₂⟩ := applyAllFailFast_spec env bad e hbad pre l₁ post hpre
    refine ⟨l₂, ?_⟩
    unfold syncLatestMigrations
    rw [hsync]
    simp only [hfetch, hl₂]

def fs0 : List FSEntry := [FSEntry.dir "m".toList]

def c3Ledger : Ledger :=
  [mkRec 1 1 "UPGRADE" false false, mkRec 2 2 "UPGRADE" false false,
   mkRec 3 3 "UPGRADE" false false]

def envC3 : Env :=
  { env0 with execResult := fun sm => if sm.id = 1 then .ok () else .error "boom".toList }

/-- C3, witness: three outstanding upgrades with ids 1, 2, 3; record 1
succeeds, record 2 fails, record 3 is never attempted. -/
theorem C3_up_fail_fast_witness :
    List.Sorted leId ([mkRec 1 1 "UPGRADE" false false] ++
      mkRec 2 2 "UPGRADE" false false :: [mkRec 3 3 "UPGRADE" false false]) ∧
    ∃ l₂, syncLatestMigrations envC3 fs0 "m".toList c3Ledger =
      (l₂, [mkRec 1 1 "UPGRADE" false false].map SchemaMigration.id ++
        [(mkRec 2 2 "UPGRADE" false false).id], .err (.execFailed "boom".toList)) :=
  C3_up_fail_fast envC3 fs0 "m".toList c3Ledger c3Ledger []
    [mkRec 1 1 "UPGRADE" false false] [mkRec 3 3 "UPGRADE" false false]
    (mkRec 2 2 "UPGRADE" false false) "boom".toList
    (by decide) (by decide) (by decide) (by decide)

/-! Claim C4. -/

def checkSumOf : GoResult FileDetails → Option (List Nat)
  | .ok fd => some fd.checkSum
  | _ => none

def contentOf : GoResult FileDetails → Option (List Nat)
  | .ok fd => some fd.fileContent
  | _ => none

def c4FS : List FSEntry := [FSEntry.file "V1__init.up.sql".toList [1, 2, 3]]

/-- C4: evaluation at the failing input.  Two runs of `GetFileDetails` on the
same file with byte-identical raw content — differing only in the random salt
bcrypt draws internally — both succeed, read equal content, and compute
different CheckSum values: the salted password hash is not a deterministic
content fingerprint. -/
theorem C4_fingerprint_eval :
    (checkSumOf (GetFileDetails (readFileFS c4FS) 0 "V1__init.up.sql".toList)).isSome ∧
    contentOf (GetFileDetails (readFileFS c4FS) 0 "V1__init.up.sql".toList) =
      contentOf (GetFileDetails (readFileFS c4FS) 1 "V1__init.up.sql".toList) ∧
    checkSumOf (GetFileDetails (readFileFS c4FS) 0 "V1__init.up.sql".toList) ≠
      checkSumOf (GetFileDetails (readFileFS c4FS) 1 "V1__init.up.sql".toList) := by decide

/-! Claim C5. -/

theorem GetFileDetails_ok_filePath (rf : Str → Except MError (List Nat)) (salt : Nat)
    (p : Str) (fd : FileDetails) (h : GetFileDetails rf salt p = .ok fd) :
    fd.filePath = p := by
  unfold GetFileDetails at h
  split at h
  · cases h
  · dsimp only at h
    split at h
    · cases h
    · split at h
      · cases h
      · split at h
        · cases h
        · split at h
          · cases h
          · split at h
            · cases h
            · cases h
              rfl

theorem AddEntryToDB_ledger (env : Env) (fs : List FSEntry) (p : Str) (l : Ledger) :
    (AddEntryToDB env fs p l).1 = l ∨
    ∃ sm, (AddEntryToDB env fs p l).1 = l ++ [sm] ∧ sm.filePath = p ∧
      sm.processed = false ∧ sm.success = false ∧ sm.error = [] := by
  unfold AddEntryToDB
  split
  case h_1 => left; rfl
  case h_2 => left; rfl
  case h_3 fd heq =>
    dsimp only
    unfold AddSchemaMigration
    dsimp only
    split
    · left; rfl
    case h_2 l2 sm2 heq2 =>
      split at heq2
      · cases heq2
      · cases heq2
        right
        refine ⟨_, rfl, ?_, rfl, rfl, rfl⟩
        simpa using GetFileDetails_ok_filePath _ _ _ _ heq

def c5FS : List FSEntry :=
  [FSEntry.dir "m".toList, FSEntry.dir "m/sub".toList,
   FSEntry.file "m/sub/V1__init.up.sql".toList [65]]

/-- C5, counterexample: the walk of a tree with a nested subdirectory visits
the entry "m/sub", which is a directory and not the root; the reconciler does
not skip it — a parse is attempted on it (it appears in the trace of paths
handed to `AddEntryToDB`), the file read fails, and the whole reconciliation
aborts with that IO error before the well-formed file below it is
registered. -/
theorem C5_counterexample :
    FSEntry.dir "m/sub".toList ∈ c5FS ∧ "m/sub".toList ≠ "m".toList ∧
    AddNewSchemaMigrations env0 c5FS "m".toList [] =
      ([], ["m/sub".toList], .err (.ioError "m/sub".toList)) := by decide

/-- C5 (amended): reconciliation skips only the root directory path — the
root is never handed to the parser and no record is ever inserted for it —
while a nested subdirectory entry is not skipped: when the walk reaches a
non-root path whose read fails (as a directory's does) and which has no
ledger record, the parser is invoked on it and the reconciliation aborts with
the read error, inserting nothing. -/
theorem C5_directory_handling (env : Env) (fs : List FSEntry) (root : Str) (l : Ledger) :
    (root ∉ (AddNewSchemaMigrations env fs root l).2.1 ∧
      ∀ r ∈ (AddNewSchemaMigrations env fs root l).1, r ∈ l ∨ r.filePath ≠ root) ∧
    ∀ (d : Str) (rest : List Str) (e : MError), d ≠ root →
      readFileFS fs d = .error e → CountSchemaMigrationForFilePath l d ≠ 1 →
      processFiles env fs root (d :: rest) l = (l, [d], .err e) := by
  constructor
  · unfold AddNewSchemaMigrations
    generalize walkPaths fs = ps
    induction ps generalizing l with
    | nil =>
      constructor
      · simp [processFiles]
      · intro r hr
        left
        simpa [processFiles] using hr
    | cons p rest ih =>
      unfold processFiles
      split
      · exact ih l
      · split
        · exact ih l
        · split
          case h_1 l' sm heq =>
            have hl' : l' = (AddEntryToDB env fs p l).1 := by rw [heq]
            constructor
            · intro hmem
              rcases List.mem_cons.1 hmem with hp | htr
              · exact absurd hp.symm (by assumption)
              · exact absurd htr (ih l').1
            · intro r hr
              rcases (ih l').2 r hr with hrl' | hne
              · rcases AddEntryToDB_ledger env fs p l with hsame | ⟨sm2, hsm2, hpath, hf1, hf2, hf3⟩
                · left; rw [hl', hsame] at hrl'; exact hrl'
                · rw [hl', hsm2] at hrl'
                  rcases List.mem_append.1 hrl' with h1 | h2
                  · left; exact h1
                  · right
                    have : r = sm2 := by simpa using h2
                    rw [this, hpath]
                    assumption
              · right; exact hne
          case h_2 l' e heq =>
            have hl' : l' = (AddEntryToDB env fs p l).1 := by rw [heq]
            constructor
            · intro hmem
              have hp : root = p := by simpa using hmem
              exact absurd hp.symm (by assumption)
            · intro r hr
              rcases AddEntryToDB_ledger env fs p l with hsame | ⟨sm2, hsm2, hpath, hf1, hf2, hf3⟩
              · left; rw [hl', hsame] at hr; exact hr
              · rw [hl', hsm2] at hr
                rcases List.mem_append.1 hr with h1 | h2
                · left; exact h1
                · right
                  have : r = sm2 := by simpa using h2
                  rw [this, hpath]
                  assumption
          case h_3 l' m heq =>
            have hl' : l' = (AddEntryToDB env fs p l).1 := by rw [heq]
            constructor
            · intro hmem
              have hp : root = p := by simpa using hmem
              exact absurd hp.symm (by assumption)
            · intro r hr
              rcases AddEntryToDB_ledger env fs p l with hsame | ⟨sm2, hsm2, hpath, hf1, hf2, hf3⟩
              · left; rw [hl', hsame] at hr; exact hr
              · rw [hl', hsm2] at hr
                rcases List.mem_append.1 hr with h1 | h2
                · left; exact h1
                · right
                  have : r = sm2 := by simpa using h2
                  rw [this, hpath]
                  assumption
  · intro d rest e hd hread hcount
    unfold processFiles
    rw [if_neg hd, if_neg hcount]
    unfold AddEntryToDB GetFileDetails
    rw [hread]

/-- C5, witness: the amended statement at the nested tree `c5FS`: the root
"m" is skipped while the nested directory "m/sub" is parsed and aborts the
run. -/
theorem C5_directory_handling_witness :
    ("m".toList ∉ (AddNewSchemaMigrations env0 c5FS "m".toList []).2.1) ∧
    processFiles env0 c5FS "m".toList
      ["m/sub".toList, "m/sub/V1__init.up.sql".toList] [] =
      ([], ["m/sub".toList], .err (.ioError "m/sub".toList)) := by
  have h := C5_directory_handling env0 c5FS "m".toList []
  exact ⟨h.1.1, h.2 "m/sub".toList ["m/sub/V1__init.up.sql".toList]
    (.ioError "m/sub".toList) (by decide) (by decide) (by decide)⟩

/-! Claim C6. -/

def c6FS : List FSEntry := [FSEntry.file "V-1__init.up.sql".toList [65]]

/-- C6, counterexample: the file V-1__init.up.sql has a version token whose
stripped form "-1" is a negative number, yet `GetFileDetails` succeeds with
Version = -1 instead of failing with InvalidNamingError: strconv.Atoi parses
signed integers. -/
theorem C6_counterexample :
    GetFileDetails (readFileFS c6FS) 0 "V-1__init.up.sql".toList =
      .ok { version := -1, description := "init".toList,
            migrationType := "UPGRADE".toList,
            filePath := "V-1__init.up.sql".toList, fileContent := [65],
            checkSum := bcryptGenerateFromPassword [65] bcryptDefaultCost 0 } := by decide

/-- C6 (amended): after the name decomposes (three dot segments with an
up/down tag, a two-part stem, a non-empty version token), `GetFileDetails`
fails with InvalidNamingError exactly when the token with its first character
stripped does not parse as a signed integer under strconv.Atoi; a negative
token parses and yields a negative Version rather than an error. -/
theorem C6_version_token (rf : Str → Except MError (List Nat)) (salt : Nat) (p : Str)
    (content : List Nat) (stem tag ext : Str) (c0 : Char) (vtok desc : Str)
    (hread : rf p = .ok content)
    (hsplit : splitChar '.' ((splitChar '/' p).getLastD []) = [stem, tag, ext])
    (htag : tag = "up".toList ∨ tag = "down".toList)
    (hstem : splitUU stem = [c0 :: vtok, desc]) :
    (goAtoi vtok = none → GetFileDetails rf salt p = .err (.invalidFileName p)) ∧
    ∀ v, goAtoi vtok = some v →
      GetFileDetails rf salt p =
        .ok { version := v, description := desc,
              migrationType := if tag = "up".toList then "UPGRADE".toList
                               else "DOWNGRADE".toList,
              filePath := p, fileContent := content,
              checkSum := bcryptGenerateFromPassword content bcryptDefaultCost salt } := by
  unfold GetFileDetails
  rw [hread]
  dsimp only
  rw [hsplit]
  simp only [List.getD_cons_zero, List.getD_cons_succ, List.length_cons, List.length_nil]
  rw [hstem]
  rcases htag with rfl | rfl
  · rw [if_pos rfl]
    constructor
    · intro hnone
      simp [hnone]
    · intro v hv
      simp [hv]
  · rw [if_neg (by decide), if_pos rfl]
    constructor
    · intro hnone
      simp [hnone]
    · intro v hv
      simp [hv]

def c6wFS : List FSEntry := [FSEntry.file "Vx__init.up.sql".toList [65]]

/-- C6, witness: the amended theorem at the file Vx__init.up.sql, whose
stripped token "x" does not parse, and which therefore fails. -/
theorem C6_version_token_witness :
    (goAtoi "x".toList = none →
      GetFileDetails (readFileFS c6wFS) 0 "Vx__init.up.sql".toList =
        .err (.invalidFileName "Vx__init.up.sql".toList)) ∧
    ∀ v, goAtoi "x".toList = some v →
      GetFileDetails (readFileFS c6wFS) 0 "Vx__init.up.sql".toList =
        .ok { version := v, description := "init".toList,
              migrationType := if "up".toList = "up".toList then "UPGRADE".toList
                               else "DOWNGRADE".toList,
              filePath := "Vx__init.up.sql".toList, fileContent := [65],
              checkSum := bcryptGenerateFromPassword [65] bcryptDefaultCost 0 } :=
  C6_version_token (readFileFS c6wFS) 0 "Vx__init.up.sql".toList [65]
    "Vx__init".toList "up".toList "sql".toList 'V' "x".toList "init".toList
    (by decide) (by decide) (Or.inl rfl) (by decide)

/-! Claim C7. -/

def c7FS : List FSEntry := [FSEntry.file "__init.up.sql".toList [65]]

/-- C7: evaluation at the failing input.  On a readable file named
__init.up.sql the stem splits into an empty version segment and "init"; the
Go slice expression `fileStrs[0][1:]` is out of range on the empty string, so
`GetFileDetails` panics instead of returning an error: the function is not
total on readable files. -/
theorem C7_panic_eval :
    GetFileDetails (readFileFS c7FS) 0 "__init.up.sql".toList =
      .panic "slice bounds out of range".toList := by decide

/-! Claim C8. -/

theorem processFiles_all_registered (env : Env) (fs : List FSEntry) (root : Str) :
    ∀ (ps : List Str) (l : Ledger),
      (∀ p ∈ ps, p ≠ root → CountSchemaMigrationForFilePath l p = 1) →
      processFiles env fs root ps l = (l, [], .ok ()) := by
  intro ps
  induction ps with
  | nil =>
    intro l _
    rfl
  | cons p rest ih =>
    intro l h
    unfold processFiles
    by_cases hp : p = root
    · rw [if_pos hp]
      exact ih l (fun q hq hqr => h q (List.mem_cons_of_mem p hq) hqr)
    · rw [if_neg hp, if_pos (h p (List.mem_cons_self p rest) hp)]
      exact ih l (fun q hq hqr => h q (List.mem_cons_of_mem p hq) hqr)

/-- C8: reconciliation is idempotent.  When every walked path other than the
root already has exactly one ledger record for its file path
(`CountSchemaMigrationForFilePath` returns 1 — the state a first successful
run leaves behind), a further run of `AddNewSchemaMigrations` skips every
entry: it attempts no parse, inserts zero new records, leaves the ledger
unchanged, and succeeds. -/
theorem C8_idempotent (env : Env) (fs : List FSEntry) (root : Str) (l : Ledger)
    (h : ∀ p ∈ walkPaths fs, p ≠ root → CountSchemaMigrationForFilePath l p = 1) :
    AddNewSchemaMigrations env fs root l = (l, [], .ok ()) :=
  processFiles_all_registered env fs root (walkPaths fs) l h

def c8FS : List FSEntry :=
  [FSEntry.dir "m".toList, FSEntry.file "m/V1__init.up.sql".toList [65]]

def c8Ledger : Ledger :=
  [{ mkRec 1 1 "UPGRADE" false false with filePath := "m/V1__init.up.sql".toList }]

/-- C8, witness: a second run over a directory whose single file is already
registered changes nothing. -/
theorem C8_idempotent_witness :
    AddNewSchemaMigrations env0 c8FS "m".toList c8Ledger = (c8Ledger, [], .ok ()) :=
  C8_idempotent env0 c8FS "m".toList c8Ledger (by decide)

/-! Claim C9. -/

theorem applyAllBestEffort_trace (env : Env) :
    ∀ (recs : List SchemaMigration) (l : Ledger),
      (applyAllBestEffort env l recs).2 = recs.map SchemaMigration.id := by
  intro recs
  induction recs with
  | nil =>
    intro l
    rfl
  | cons sm rest ih =>
    intro l
    simp [applyAllBestEffort, ih]

/-- C9: the reset command (`revertAll`) fetches all outstanding DOWNGRADE
records ordered newest-first — the fetched batch is sorted by descending
surrogate id — and applies them best-effort: whatever the environment makes
each application do (including failing), every record of the batch is handed
to `ApplyMigration`, as the applied trace equals the whole fetched batch. -/
theorem C9_reset_best_effort (env : Env) (l : Ledger) :
    ∃ l' recs,
      FetchUnProcessedSchemaMigrations l "DOWNGRADE".toList "id DESC".toList = .ok recs ∧
      List.Sorted (fun a b => b.id ≤ a.id) recs ∧
      revertAll env l = (l', recs.map SchemaMigration.id) := by
  refine ⟨(applyAllBestEffort env l (orderById "id DESC".toList
      (l.filter (fun r => !r.processed && r.migrationType == "DOWNGRADE".toList)))).1,
    orderById "id DESC".toList
      (l.filter (fun r => !r.processed && r.migrationType == "DOWNGRADE".toList)),
    rfl, ?_, ?_⟩
  · rw [orderById_desc]
    exact List.pairwise_reverse.2 (List.sorted_insertionSort leId _)
  · show applyAllBestEffort env l _ = _
    exact Prod.ext rfl (applyAllBestEffort_trace env _ l)

/-! Claim C10. -/

/-- Outcome invariant of the ledger: an unattempted record is never marked
successful or failed. -/
def LedgerInv (l : Ledger) : Prop :=
  ∀ r ∈ l, r.processed = false → r.success = false ∧ r.error = []

instance (l : Ledger) : Decidable (LedgerInv l) := by
  unfold LedgerInv
  infer_instance

theorem ApplyMigration_ok_updateFail (env : Env) (l : Ledger) (sm : SchemaMigration)
    (h1 : env.execResult sm = .ok ()) (h2 : env.updateOk sm.id = false) :
    ApplyMigration env l sm = (l, .error (.updateFailed sm.id)) := by
  simp [ApplyMigration, ApplySchemaMigration, h1, UpdateSchemaMigration, h2]

theorem updatedLedger_inv (env : Env) (l : Ledger) (ID t : Nat) (s : Bool) (e : Str)
    (hInv : LedgerInv l) : LedgerInv (UpdateSchemaMigration env l ID t true s e).1 := by
  unfold UpdateSchemaMigration
  by_cases h : env.updateOk ID = true
  · rw [if_pos h]
    intro r hr hproc
    obtain ⟨r0, hr0, hmap⟩ := List.mem_map.1 hr
    by_cases hid : r0.id = ID
    · rw [← hmap] at hproc
      simp [hid] at hproc
    · rw [← hmap] at hproc ⊢
      simp only [hid, if_neg] at hproc ⊢
      simpa using hInv r0 hr0 (by simpa using hproc)
  · rw [if_neg h]
    exact hInv

theorem ApplyMigration_inv (env : Env) (l : Ledger) (sm : SchemaMigration)
    (hInv : LedgerInv l) : LedgerInv (ApplyMigration env l sm).1 := by
  rcases hres : env.execResult sm with m | u
  · rw [ApplyMigration_fail env l sm m hres]
    exact updatedLedger_inv env l sm.id env.elapsed false m hInv
  · cases u
    by_cases hup : env.updateOk sm.id = true
    · rw [ApplyMigration_ok env l sm hres hup]
      exact updatedLedger_inv env l sm.id env.elapsed true [] hInv
    · rw [ApplyMigration_ok_updateFail env l sm hres (by simpa using hup)]
      exact hInv

theorem AddEntryToDB_ok_fresh (env : Env) (fs : List FSEntry) (p : Str) (l : Ledger)
    (sm : SchemaMigration) (h : (AddEntryToDB env fs p l).2 = .ok sm) :
    sm.processed = false ∧ sm.success = false ∧ sm.error = [] := by
  unfold AddEntryToDB at h
  split at h
  · cases h
  · cases h
  case h_3 fd heq =>
    dsimp only at h
    unfold AddSchemaMigration at h
    dsimp only at h
    split at h
    case h_1 e heq2 =>
      cases h
    case h_2 l2 sm2 heq2 =>
      split at heq2
      · cases heq2
      · cases heq2
        cases h
        exact ⟨rfl, rfl, rfl⟩

theorem AddEntryToDB_inv (env : Env) (fs : List FSEntry) (p : Str) (l : Ledger)
    (hInv : LedgerInv l) : LedgerInv (AddEntryToDB env fs p l).1 := by
  rcases AddEntryToDB_ledger env fs p l with hsame | ⟨sm, hsm, _, _, hsucc, herr⟩
  · rw [hsame]
    exact hInv
  · rw [hsm]
    intro r hr hrproc
    rcases List.mem_append.1 hr with h1 | h2
    · exact hInv r h1 hrproc
    · have hr2 : r = sm := by simpa using h2
      rw [hr2]
      exact ⟨hsucc, herr⟩

theorem processFiles_inv (env : Env) (fs : List FSEntry) (root : Str) :
    ∀ (ps : List Str) (l : Ledger), LedgerInv l →
      LedgerInv (processFiles env fs root ps l).1 := by
  intro ps
  induction ps with
  | nil =>
    intro l hInv
    exact hInv
  | cons p rest ih =>
    intro l hInv
    unfold processFiles
    split
    · exact ih l hInv
    · split
      · exact ih l hInv
      · split
        case h_1 l' sm heq =>
          have hl' : l' = (AddEntryToDB env fs p l).1 := by rw [heq]
          have := AddEntryToDB_inv env fs p l hInv
          rw [← hl'] at this
          exact ih l' this
        case h_2 l' e heq =>
          have hl' : l' = (AddEntryToDB env fs p l).1 := by rw [heq]
          have := AddEntryToDB_inv env fs p l hInv
          rw [← hl'] at this
          exact this
        case h_3 l' m heq =>
          have hl' : l' = (AddEntryToDB env fs p l).1 := by rw [heq]
          have := AddEntryToDB_inv env fs p l hInv
          rw [← hl'] at this
          exact this

theorem applyAllFailFast_inv (env : Env) :
    ∀ (recs : List SchemaMigration) (l : Ledger), LedgerInv l →
      LedgerInv (applyAllFailFast env l recs).1 := by
  intro recs
  induction recs with
  | nil =>
    intro l hInv
    exact hInv
  | cons sm rest ih =>
    intro l hInv
    unfold applyAllFailFast
    split
    case h_1 l' u heq =>
      have hl' : l' = (ApplyMigration env l sm).1 := by rw [heq]
      have := ApplyMigration_inv env l sm hInv
      rw [← hl'] at this
      exact ih l' this
    case h_2 l' e heq =>
      have hl' : l' = (ApplyMigration env l sm).1 := by rw [heq]
      have := ApplyMigration_inv env l sm hInv
      rw [← hl'] at this
      exact this

theorem applyAllBestEffort_inv (env : Env) :
    ∀ (recs : List SchemaMigration) (l : Ledger), LedgerInv l →
      LedgerInv (applyAllBestEffort env l recs).1 := by
  intro recs
  induction recs with
  | nil =>
    intro l hInv
    exact hInv
  | cons sm rest ih =>
    intro l hInv
    exact ih (ApplyMigration env l sm).1 (ApplyMigration_inv env l sm hInv)

/-- C10: every ledger mutation preserves the outcome invariant that
`processed = false` implies `succeeded = false` and an empty error message:
the reconciler creates every record with Processed = false, Success = false
and empty Error and preserves the invariant; `ApplyMigration` (and both batch
loops over it) only ever writes updates with processed = true, preserving the
invariant; and on execution failure `ApplyMigration` records
processed = true, succeeded = false and the error message (when the ledger
write succeeds), leaves the ledger unchanged when the ledger write itself
fails, and in both cases still returns the original execution error. -/
theorem C10_outcome_invariant :
    (∀ (env : Env) (fs : List FSEntry) (p : Str) (l l' : Ledger) (sm : SchemaMigration),
        AddEntryToDB env fs p l = (l', .ok sm) →
        sm.processed = false ∧ sm.success = false ∧ sm.error = [] ∧
        (LedgerInv l → LedgerInv l')) ∧
    (∀ (env : Env) (fs : List FSEntry) (root : Str) (l : Ledger),
        LedgerInv l → LedgerInv (AddNewSchemaMigrations env fs root l).1) ∧
    (∀ (env : Env) (l : Ledger) (sm : SchemaMigration),
        LedgerInv l → LedgerInv (ApplyMigration env l sm).1) ∧
    (∀ (env : Env) (l : Ledger) (recs : List SchemaMigration),
        LedgerInv l → LedgerInv (applyAllFailFast env l recs).1) ∧
    (∀ (env : Env) (l : Ledger) (recs : List SchemaMigration),
        LedgerInv l → LedgerInv (applyAllBestEffort env l recs).1) ∧
    (∀ (env : Env) (l : Ledger) (sm : SchemaMigration) (m : Str),
        env.execResult sm = .error m →
        (ApplyMigration env l sm).2 = .error (.execFailed m) ∧
        (env.updateOk sm.id = false → (ApplyMigration env l sm).1 = l) ∧
        (env.updateOk sm.id = true →
          (ApplyMigration env l sm).1 = l.map (fun r =>
            if r.id = sm.id then
              { r with executionTime := env.elapsed, processed := true,
                       success := false, error := m, updatedAt := env.now }
            else r))) := by
  refine ⟨?_, ?_, ?_, ?_, ?_, ?_⟩
  · intro env fs p l l' sm h
    have hl' : l' = (AddEntryToDB env fs p l).1 := by rw [h]
    have hfresh := AddEntryToDB_ok_fresh env fs p l sm (by rw [h])
    refine ⟨hfresh.1, hfresh.2.1, hfresh.2.2, fun hInv => ?_⟩
    rw [hl']
    exact AddEntryToDB_inv env fs p l hInv
  · intro env fs root l hInv
    exact processFiles_inv env fs root (walkPaths fs) l hInv
  · intro env l sm hInv
    exact ApplyMigration_inv env l sm hInv
  · intro env l recs hInv
    exact applyAllFailFast_inv env recs l hInv
  · intro env l recs hInv
    exact applyAllBestEffort_inv env recs l hInv
  · intro env l sm m hres
    rw [ApplyMigration_fail env l sm m hres]
    refine ⟨rfl, ?_, ?_⟩
    · intro hup
      unfold UpdateSchemaMigration
      rw [if_neg (by simp [hup])]
    · intro hup
      unfold UpdateSchemaMigration
      rw [if_pos hup]

def envC10 : Env :=
  { env0 with execResult := fun _ => .error "boom".toList, updateOk := fun _ => false }

def c10FS : List FSEntry :=
  [FSEntry.dir "m".toList, FSEntry.file "m/V1__init.up.sql".toList [65]]

/-- C10, witness: the invariant conjuncts applied at concrete inputs — a
fresh reconciliation of one file, and a failing application whose ledger
write also fails, which leaves the ledger unchanged and still reports the
execution error. -/
theorem C10_outcome_invariant_witness :
    LedgerInv (AddNewSchemaMigrations env0 c10FS "m".toList []).1 ∧
    LedgerInv (ApplyMigration envC10 [mkRec 1 1 "UPGRADE" false false]
      (mkRec 1 1 "UPGRADE" false false)).1 ∧
    (ApplyMigration envC10 [mkRec 1 1 "UPGRADE" false false]
      (mkRec 1 1 "UPGRADE" false false)).2 = .error (.execFailed "boom".toList) ∧
    (ApplyMigration envC10 [mkRec 1 1 "UPGRADE" false false]
      (mkRec 1 1 "UPGRADE" false false)).1 = [mkRec 1 1 "UPGRADE" false false] := by
  have h := C10_outcome_invariant
  refine ⟨h.2.1 env0 c10FS "m".toList [] (by decide),
    h.2.2.1 envC10 [mkRec 1 1 "UPGRADE" false false]
      (mkRec 1 1 "UPGRADE" false false) (by decide),
    (h.2.2.2.2.2 envC10 [mkRec 1 1 "UPGRADE" false false]
      (mkRec 1 1 "UPGRADE" false false) "boom".toList (by decide)).1,
    (h.2.2.2.2.2 envC10 [mkRec 1 1 "UPGRADE" false false]
      (mkRec 1 1 "UPGRADE" false false) "boom".toList (by decide)).2.1 (by decide)⟩

end PgMigrations
